import Mathlib

/-!
Verification development for the PortfolioManager ledger core.

The definitions below are a shallow embedding of the Python sources:
  * `backend/utils/calculations.py`   (FinancialCalculations.calculate_fifo_cost_basis)
  * `backend/services/portfolio_service.py` (PortfolioService.calculate_holdings)
  * `backend/services/validation_service.py` (TransactionValidator)
  * `backend/services/audit_service.py` (AuditService)
  * `backend/services/transaction_service.py` (TransactionService.update_transaction)

Conventions of the embedding:
  * Python floats are modelled as rationals (`ℚ`);
  * calendar dates are modelled as integer day numbers (`Int`), with
    `date.today()` passed in as an explicit `today` parameter and
    `timedelta(days=3650)` becoming a subtraction of 3650;
  * `None` becomes `Option.none`;
  * Python `str(x)` stringification is modelled by Lean `toString`;
  * the JSON serialisation of the audit diff (`json.dumps`) is kept at the
    structural level: the diff payload is stored as the association list it
    serialises, `None` staying `none` (Python stores `None` when the diff
    dict is empty, because an empty dict is falsy).
-/

namespace PortfolioManager

/-- Kernel-computable model of the Python `str.upper()` (Lean's
`String.toUpper` applied characterwise); the repository only upper-cases
ASCII transaction types and tickers. -/
def strUpper (s : String) : String := ⟨s.data.map Char.toUpper⟩

/-- Kernel-computable model of the Python `str.strip()` (Lean's
`String.trim`): drop whitespace from both ends. -/
def strTrim (s : String) : String :=
  ⟨((s.data.dropWhile Char.isWhitespace).reverse.dropWhile Char.isWhitespace).reverse⟩

/-- A FIFO purchase slice: the dictionaries with keys `quantity`, `price`,
`date` that `calculate_fifo_cost_basis` consumes and produces. -/
structure Lot where
  quantity : ℚ
  price : ℚ
  date : Int
deriving DecidableEq, Repr

/-- Embeds `FinancialCalculations.calculate_fifo_cost_basis`
(`backend/utils/calculations.py`): walk the purchase list; once the quantity
to sell is exhausted (`remaining_quantity <= 0`) every later lot is kept;
a lot no larger than the remaining quantity is consumed whole; a larger lot
is split, its unused portion kept.  Returns `(cost_basis,
remaining_purchases)`. -/
def calculate_fifo_cost_basis : List Lot → ℚ → ℚ × List Lot
  | [], _ => (0, [])
  | p :: ps, remaining =>
    if remaining ≤ 0 then
      let r := calculate_fifo_cost_basis ps remaining
      (r.1, p :: r.2)
    else if p.quantity ≤ remaining then
      let r := calculate_fifo_cost_basis ps (remaining - p.quantity)
      (p.quantity * p.price + r.1, r.2)
    else
      let r := calculate_fifo_cost_basis ps 0
      (remaining * p.price + r.1,
        { quantity := p.quantity - remaining, price := p.price, date := p.date } :: r.2)

/-- Total quantity held in a list of lots. -/
def sumQty (lots : List Lot) : ℚ := (lots.map Lot.quantity).sum

/-- Total cost carried by a list of lots (quantity times unit price, summed). -/
def sumCost (lots : List Lot) : ℚ := (lots.map fun l => l.quantity * l.price).sum

/-- A BUY/SELL row as consumed by `PortfolioService.calculate_holdings`:
on such rows the service dereferences `quantity` and `price` unconditionally,
so the embedding gives them non-optional types. -/
structure TradeRow where
  ticker : String
  typ : String
  quantity : ℚ
  price : ℚ
  date : Int
deriving DecidableEq, Repr

/-- The per-ticker accumulator of `calculate_holdings`: the `purchases` /
`total_quantity` / `total_cost` entry of `holdings_dict`. -/
structure TickerState where
  purchases : List Lot
  totalQuantity : ℚ
  totalCost : ℚ
deriving DecidableEq, Repr

/-- The zero entry `defaultdict` supplies for a fresh ticker. -/
def initialTickerState : TickerState := ⟨[], 0, 0⟩

/-- One iteration of the transaction loop in `calculate_holdings`: a BUY
appends a lot and grows the totals, a SELL runs the FIFO projection and
shrinks them; any other row leaves the state alone. -/
def processRow (st : TickerState) (row : TradeRow) : TickerState :=
  if row.typ = "BUY" then
    { purchases := st.purchases ++ [⟨row.quantity, row.price, row.date⟩]
      totalQuantity := st.totalQuantity + row.quantity
      totalCost := st.totalCost + row.quantity * row.price }
  else if row.typ = "SELL" then
    let r := calculate_fifo_cost_basis st.purchases row.quantity
    { purchases := r.2
      totalQuantity := st.totalQuantity - row.quantity
      totalCost := st.totalCost - r.1 }
  else st

/-- Folds all rows of one ticker through `processRow`; because each row only
touches its own ticker's `holdings_dict` entry, the dict entry for `tk`
after the Python loop equals this fold over the rows whose ticker is `tk`. -/
def projectTicker (rows : List TradeRow) (tk : String) : TickerState :=
  ((rows.filter fun r => decide (r.ticker = tk)).foldl processRow initialTickerState)

/-- First-appearance-ordered list of tickers, matching the insertion order
of keys in the Python `defaultdict`. -/
def tickerKeys (rows : List TradeRow) : List String :=
  (rows.map TradeRow.ticker).foldl (fun acc tk => if tk ∈ acc then acc else acc ++ [tk]) []

/-- Company/sector/industry data returned by
`MarketDataService.get_stock_info`, an external collaborator. -/
structure StockInfo where
  companyName : Option String
  sector : Option String
  industry : Option String
deriving DecidableEq, Repr

/-- The `Holding` response schema (`backend/models/schemas.py`). -/
structure Holding where
  ticker : String
  companyName : Option String
  quantity : ℚ
  averageCost : ℚ
  currentPrice : ℚ
  marketValue : ℚ
  costBasis : ℚ
  unrealizedGain : ℚ
  unrealizedGainPercent : ℚ
  sector : Option String
  industry : Option String
deriving DecidableEq, Repr

/-- Embeds `PortfolioService.calculate_holdings`: fold the BUY/SELL rows per
ticker, then emit one `Holding` per ticker, skipping tickers whose remaining
quantity is not positive (`if data['total_quantity'] <= 0: continue`) and
tickers with no usable price (`if not current_price: continue`, which also
skips a price of `0.0`).  The market-data collaborator appears as the
`getPrice` / `getInfo` parameters. -/
def calculate_holdings (rows : List TradeRow)
    (getPrice : String → Option ℚ) (getInfo : String → StockInfo) : List Holding :=
  (tickerKeys rows).filterMap fun tk =>
    let st := projectTicker rows tk
    if st.totalQuantity ≤ 0 then none
    else
      match getPrice tk with
      | none => none
      | some price =>
        if price = 0 then none
        else
          let quantity := st.totalQuantity
          let costBasis := st.totalCost
          let averageCost := if 0 < quantity then costBasis / quantity else 0
          let marketValue := quantity * price
          let unrealizedGain := marketValue - costBasis
          let unrealizedGainPercent :=
            if 0 < costBasis then unrealizedGain / costBasis * 100 else 0
          some
            { ticker := tk
              companyName := some (((getInfo tk).companyName).getD tk)
              quantity := quantity
              averageCost := averageCost
              currentPrice := price
              marketValue := marketValue
              costBasis := costBasis
              unrealizedGain := unrealizedGain
              unrealizedGainPercent := unrealizedGainPercent
              sector := (getInfo tk).sector
              industry := (getInfo tk).industry }

/-- A row of the `transactions` table (`backend/models/database.py`).
`created_at` / `updated_at` wall-clock columns are outside the embedding. -/
structure Transaction where
  id : Nat
  transaction_type : String
  ticker : String
  quantity : Option ℚ
  price : Option ℚ
  total_amount : ℚ
  transaction_date : Int
  notes : Option String
  version : Nat
deriving DecidableEq, Repr

/-- The `TransactionUpdate` pydantic schema (`backend/models/schemas.py`)
under `dict(exclude_unset=True)` semantics: an outer `none` means the field
was not supplied.  For `quantity`, `price` and `notes` — nullable columns —
an explicitly supplied `None` is the inner `none`. -/
structure TransactionUpdate where
  transaction_type : Option String := none
  ticker : Option String := none
  quantity : Option (Option ℚ) := none
  price : Option (Option ℚ) := none
  total_amount : Option ℚ := none
  transaction_date : Option Int := none
  notes : Option (Option String) := none
deriving DecidableEq, Repr

/-- The merged dict built by `TransactionValidator._merge_transaction`. -/
structure Effective where
  id : Nat
  transaction_type : String
  ticker : String
  quantity : Option ℚ
  price : Option ℚ
  total_amount : ℚ
  transaction_date : Int
  notes : Option String
deriving DecidableEq, Repr

/-- Embeds `TransactionValidator._merge_transaction`: each field is the
update's value when supplied, otherwise the original's. -/
def merge_transaction (original : Transaction) (u : TransactionUpdate) : Effective :=
  { id := original.id
    transaction_type := u.transaction_type.getD original.transaction_type
    ticker := u.ticker.getD original.ticker
    quantity := u.quantity.getD original.quantity
    price := u.price.getD original.price
    total_amount := u.total_amount.getD original.total_amount
    transaction_date := u.transaction_date.getD original.transaction_date
    notes := u.notes.getD original.notes }

/-- Structured metadata attached to validation errors. -/
inductive VMeta
  /-- metadata of the `INSUFFICIENT_SHARES` error -/
  | insufficientShares (available requested : ℚ) (ticker : String) (date : String)
  /-- metadata of the `FIFO_CHAIN_BROKEN` error -/
  | fifoChainBroken (affectedSellDate : String) (sellQuantity availableBeforeSell : ℚ)
      (ticker : String)
deriving DecidableEq, Repr

/-- One entry of the `errors` / `warnings` lists returned by the validator. -/
structure VError where
  field : Option String
  message : String
  code : String
  metadata : Option VMeta := none
deriving DecidableEq, Repr

/-- The `transaction_date` value `_validate_date` receives: a `datetime.date`
object, a string that `datetime.strptime` with the %Y-%m-%d format parses to
a date, or a string it rejects.  The strptime call itself is
standard-library behaviour; the embedding keeps only its parsed-or-rejected
outcome. -/
inductive DateInput
  /-- already a date object -/
  | obj (day : Int)
  /-- a string that parses to the given day -/
  | strOk (day : Int)
  /-- a string that fails to parse -/
  | strBad (text : String)
deriving DecidableEq, Repr

/-- The parse outcome of a `DateInput`. -/
def DateInput.parsed : DateInput → Option Int
  | .obj d => some d
  | .strOk d => some d
  | .strBad _ => none

/-- Embeds `TransactionValidator._validate_date`: a malformed string returns
the `DATE_INVALID_FORMAT` error alone; otherwise a date after today yields
`DATE_FUTURE` and a date before `today - 3650` days yields `DATE_TOO_OLD`. -/
def validate_date (newDate : DateInput) (today : Int) : List VError :=
  match newDate with
  | .strBad _ =>
      [{ field := some "transaction_date"
         message := "Invalid date format. Use YYYY-MM-DD"
         code := "DATE_INVALID_FORMAT" }]
  | .obj d | .strOk d =>
      let minDate := today - 3650
      (if today < d then
        [{ field := some "transaction_date"
           message := "Transaction date cannot be in the future"
           code := "DATE_FUTURE" }]
       else []) ++
      (if d < minDate then
        [{ field := some "transaction_date"
           message := s!"Transaction date cannot be before {minDate}"
           code := "DATE_TOO_OLD" }]
       else [])

/-- Embeds `TransactionValidator._validate_quantity_price`.  The merged
`transaction_type` and `total_amount` are never `None` in the embedding, so
the Python truthiness guard on the type disappears. -/
def validate_quantity_price (e : Effective) : List VError :=
  let txnType := strUpper e.transaction_type
  (if txnType = "BUY" ∨ txnType = "SELL" then
    (match e.quantity with
     | none => [{ field := some "quantity"
                  message := s!"{txnType} transactions must have positive quantity"
                  code := "QUANTITY_REQUIRED" }]
     | some q =>
        if q ≤ 0 then
          [{ field := some "quantity"
             message := s!"{txnType} transactions must have positive quantity"
             code := "QUANTITY_REQUIRED" }]
        else []) ++
    (match e.price with
     | none => [{ field := some "price"
                  message := s!"{txnType} transactions must have positive price"
                  code := "PRICE_REQUIRED" }]
     | some p =>
        if p ≤ 0 then
          [{ field := some "price"
             message := s!"{txnType} transactions must have positive price"
             code := "PRICE_REQUIRED" }]
        else [])
   else []) ++
  (if txnType = "DIVIDEND" ∧ e.total_amount ≤ 0 then
    [{ field := some "total_amount"
       message := "Dividend must have positive amount"
       code := "AMOUNT_POSITIVE" }]
   else []) ++
  (if (txnType = "FEE" ∨ txnType = "TAX") ∧ 0 < e.total_amount then
    [{ field := some "total_amount"
       message := s!"{txnType} should have negative or zero amount"
       code := "AMOUNT_NEGATIVE" }]
   else [])

/-- The `(transaction_date, id)` ascending insertion used to model the SQL
`ORDER BY transaction_date ASC, id ASC`. -/
def insertByDateId (t : Transaction) : List Transaction → List Transaction
  | [] => [t]
  | u :: us =>
    if t.transaction_date < u.transaction_date ∨
        (t.transaction_date = u.transaction_date ∧ t.id < u.id) then
      t :: u :: us
    else u :: insertByDateId t us

/-- Sorts rows ascending by `(transaction_date, id)`; with distinct ids this
is the unique order the SQL query returns. -/
def sortByDateId : List Transaction → List Transaction
  | [] => []
  | t :: ts => insertByDateId t (sortByDateId ts)

/-- The signed quantity contribution of one row in the availability loops:
`+quantity` for a BUY, `-quantity` for a SELL, with Python's
`txn.quantity if txn.quantity else 0` becoming `Option.getD 0`. -/
def signedQty (t : Transaction) : ℚ :=
  if t.transaction_type = "BUY" then (t.quantity.getD 0)
  else if t.transaction_type = "SELL" then -(t.quantity.getD 0)
  else 0

/-- The rows `_validate_portfolio_integrity` loads: same ticker, BUY/SELL,
dated on or before the proposed date, excluding the edited row itself. -/
def integrityRows (db : List Transaction) (e : Effective) (original : Transaction) :
    List Transaction :=
  sortByDateId (db.filter fun t =>
    decide (t.ticker = e.ticker ∧
      (t.transaction_type = "BUY" ∨ t.transaction_type = "SELL") ∧
      t.transaction_date ≤ e.transaction_date ∧
      t.id ≠ original.id))

/-- The insufficient-shares error, metadata included, exactly as
`_validate_portfolio_integrity` builds it. -/
def mkInsufficientError (available requested : ℚ) (ticker : String) (d : Int) : VError :=
  { field := some "quantity"
    message := s!"Cannot sell {requested} shares. Only {available} shares available at {d}"
    code := "INSUFFICIENT_SHARES"
    metadata := some (.insufficientShares available requested ticker (toString d)) }

/-- Embeds `TransactionValidator._validate_portfolio_integrity`: for an
effective SELL with positive quantity, sum the signed quantities of all
other BUY/SELL rows dated on or before the proposed date and report
`INSUFFICIENT_SHARES` when the proposed quantity exceeds that sum. -/
def validate_portfolio_integrity (db : List Transaction) (e : Effective)
    (original : Transaction) : List VError :=
  if strUpper e.transaction_type ≠ "SELL" then []
  else
    match e.quantity with
    | none => []
    | some quantityToSell =>
      if quantityToSell ≤ 0 then []
      else
        let available :=
          (integrityRows db e original).foldl (fun acc t => acc + signedQty t) 0
        if available < quantityToSell then
          [mkInsufficientError available quantityToSell e.ticker e.transaction_date]
        else []

/-- Embeds `TransactionValidator._validate_type_specific`: the type must be
one of the five known kinds, and the ticker must be non-blank.  On a `String`
ticker the Python `not ticker or ticker.strip() == ''` collapses to the trim
test, since the empty string also trims to the empty string. -/
def validate_type_specific (e : Effective) : List VError :=
  let txnType := strUpper e.transaction_type
  (if txnType = "BUY" ∨ txnType = "SELL" ∨ txnType = "DIVIDEND" ∨
      txnType = "FEE" ∨ txnType = "TAX" then []
   else
    [{ field := some "transaction_type"
       message := "Invalid transaction type. Must be one of: BUY, SELL, DIVIDEND, FEE, TAX"
       code := "INVALID_TYPE" }]) ++
  (if strTrim e.ticker = "" then
    [{ field := some "ticker"
       message := "Ticker symbol cannot be empty"
       code := "TICKER_REQUIRED" }]
   else [])

/-- The forward-chain error, metadata included, exactly as
`_validate_fifo_impact` builds it: `availableBeforeSell` is the running
balance just before the offending SELL is applied. -/
def mkFifoError (newQuantity : ℚ) (sellDate : Int) (sellQty availableBeforeSell : ℚ)
    (ticker : String) : VError :=
  { field := some "quantity"
    message := s!"Reducing BUY quantity to {newQuantity} would cause SELL on {sellDate} to fail (insufficient shares)"
    code := "FIFO_CHAIN_BROKEN"
    metadata := some (.fifoChainBroken (toString sellDate) sellQty availableBeforeSell ticker) }

/-- The simulation loop of `_validate_fifo_impact`: before processing the
first row dated on or after the proposed date the reduced quantity is added
once; a BUY raises the balance, a SELL lowers it and, if the balance drops
below zero, the single error is returned at once. -/
def fifoImpactLoop (newQuantity : ℚ) (effDate : Int) (ticker : String) :
    List Transaction → ℚ → Bool → List VError
  | [], _, _ => []
  | t :: ts, bal, added =>
    let bal1 := if ¬added ∧ effDate ≤ t.transaction_date then bal + newQuantity else bal
    let added1 := added ∨ effDate ≤ t.transaction_date
    if t.transaction_type = "BUY" then
      fifoImpactLoop newQuantity effDate ticker ts (bal1 + t.quantity.getD 0) added1
    else if t.transaction_type = "SELL" then
      let sellQty := t.quantity.getD 0
      let bal2 := bal1 - sellQty
      if bal2 < 0 then
        [mkFifoError newQuantity t.transaction_date sellQty (bal2 + sellQty) ticker]
      else fifoImpactLoop newQuantity effDate ticker ts bal2 added1
    else fifoImpactLoop newQuantity effDate ticker ts bal1 added1

/-- The rows `_validate_fifo_impact` loads: all BUY/SELL rows of the ticker,
the edited one excluded, ordered chronologically. -/
def fifoImpactRows (db : List Transaction) (e : Effective) (original : Transaction) :
    List Transaction :=
  sortByDateId (db.filter fun t =>
    decide (t.ticker = e.ticker ∧
      (t.transaction_type = "BUY" ∨ t.transaction_type = "SELL") ∧
      t.id ≠ original.id))

/-- Embeds `TransactionValidator._validate_fifo_impact`: only an effective
BUY whose quantity drops below the original's is simulated; the loop stops at
the first SELL pushed negative. -/
def validate_fifo_impact (db : List Transaction) (e : Effective)
    (original : Transaction) : List VError :=
  if strUpper e.transaction_type ≠ "BUY" then []
  else
    let originalQuantity := original.quantity.getD 0
    let newQuantity := (e.quantity.getD 0)
    if originalQuantity ≤ newQuantity then []
    else
      fifoImpactLoop newQuantity e.transaction_date e.ticker
        (fifoImpactRows db e original) 0 false

/-- Embeds `TransactionValidator._generate_warnings` (advisory only). -/
def generate_warnings (e : Effective) (original : Transaction) : List VError :=
  (if original.transaction_type ≠ e.transaction_type ∧
      (original.transaction_type = "BUY" ∨ original.transaction_type = "SELL") ∧
      (e.transaction_type = "BUY" ∨ e.transaction_type = "SELL") then
    [{ field := none
       message := s!"Changing transaction type from {original.transaction_type} to {e.transaction_type} may significantly impact portfolio calculations"
       code := "TYPE_CHANGE_WARNING" }]
   else []) ++
  (if original.ticker ≠ e.ticker then
    [{ field := none
       message := "Changing ticker symbol affects portfolio holdings. Consider creating a new transaction instead."
       code := "TICKER_CHANGE_WARNING" }]
   else []) ++
  (match original.quantity, e.quantity with
   | some oq, some nq =>
     if oq ≠ 0 ∧ nq ≠ 0 ∧ 1 / 2 < |nq - oq| / oq then
       [{ field := none
          message := "Large quantity change. Please verify this is correct."
          code := "LARGE_CHANGE_WARNING" }]
     else []
   | _, _ => [])

/-- Outcome of `TransactionValidator.validate_transaction_update`: the
`NOT_FOUND` `ValidationError` raise, or the structured result dict. -/
inductive ValidationOutcome
  | notFound
  | result (valid : Bool) (errors warnings : List VError)
deriving DecidableEq, Repr

/-- Embeds `TransactionValidator.validate_transaction_update`: look the
original up, merge, run the five checks in source order accumulating all
errors, and compute the warnings. -/
def validate_transaction_update (db : List Transaction) (today : Int)
    (transaction_id : Nat) (u : TransactionUpdate) : ValidationOutcome :=
  match db.find? (fun t => t.id == transaction_id) with
  | none => .notFound
  | some original =>
    let e := merge_transaction original u
    let errors :=
      validate_date (.obj e.transaction_date) today ++
      validate_quantity_price e ++
      validate_portfolio_integrity db e original ++
      validate_type_specific e ++
      validate_fifo_impact db e original
    let warnings := generate_warnings e original
    .result errors.isEmpty errors warnings

/-- One entry of the audit diff: field name, stringified old value,
stringified new value (with `None` kept as `none`). -/
def FieldChange : Type := String × Option String × Option String

instance : DecidableEq FieldChange := by
  unfold FieldChange
  infer_instance

/-- Stringification of an optional rational, standing in for the Python
`str(value) if value is not None else None`. -/
def strOptQ : Option ℚ → Option String
  | none => none
  | some q => some (toString q)

/-- A row of the `transaction_history` table.  The wall-clock `changed_at`
column and the `json.dumps` serialisation of the diff are outside the
embedding; the diff is kept as the association list it serialises. -/
structure HistoryRecord where
  transaction_id : Nat
  transaction_type : String
  ticker : String
  quantity : Option ℚ
  price : Option ℚ
  total_amount : ℚ
  transaction_date : Int
  notes : Option String
  change_type : String
  changed_by : Option String
  changed_fields : Option (List FieldChange)
deriving DecidableEq

/-- Embeds `AuditService._calculate_changed_fields`: walk the fixed field
list `[transaction_type, ticker, quantity, price, total_amount,
transaction_date, notes]` in order; a field contributes an entry exactly
when its old and new values differ, carrying the stringified pair. -/
def calculate_changed_fields (original updated : Transaction) : List FieldChange :=
  (if original.transaction_type ≠ updated.transaction_type then
    [("transaction_type", some original.transaction_type, some updated.transaction_type)]
   else []) ++
  (if original.ticker ≠ updated.ticker then
    [("ticker", some original.ticker, some updated.ticker)]
   else []) ++
  (if original.quantity ≠ updated.quantity then
    [("quantity", strOptQ original.quantity, strOptQ updated.quantity)]
   else []) ++
  (if original.price ≠ updated.price then
    [("price", strOptQ original.price, strOptQ updated.price)]
   else []) ++
  (if original.total_amount ≠ updated.total_amount then
    [("total_amount", some (toString original.total_amount),
      some (toString updated.total_amount))]
   else []) ++
  (if original.transaction_date ≠ updated.transaction_date then
    [("transaction_date", some (toString original.transaction_date),
      some (toString updated.transaction_date))]
   else []) ++
  (if original.notes ≠ updated.notes then
    [("notes", original.notes, updated.notes)]
   else [])

/-- Embeds `AuditService.record_change`: snapshot the after-state into a
history row; only an UPDATE with an original computes a diff, and an empty
diff is stored as `None` (the Python `json.dumps(d) if d else None` treats
the empty dict as falsy). -/
def record_change (transaction : Transaction) (change_type : String)
    (original : Option Transaction) : HistoryRecord :=
  let changes : Option (List FieldChange) :=
    if change_type = "UPDATE" then
      original.map fun o => calculate_changed_fields o transaction
    else none
  { transaction_id := transaction.id
    transaction_type := transaction.transaction_type
    ticker := transaction.ticker
    quantity := transaction.quantity
    price := transaction.price
    total_amount := transaction.total_amount
    transaction_date := transaction.transaction_date
    notes := transaction.notes
    change_type := change_type
    changed_by := none
    changed_fields :=
      match changes with
      | some cs => if cs.isEmpty then none else some cs
      | none => none }

/-- The persistent state the update path touches: the `transactions` table
and the `transaction_history` table. -/
structure Db where
  transactions : List Transaction
  history : List HistoryRecord
deriving DecidableEq

/-- Outcome of `TransactionService.update_transaction`: the `None` return
for a missing id, the raised `ValidationError`, or the updated row. -/
inductive UpdateResult
  | notFound
  | validationFailed (errors : List VError)
  | ok (t : Transaction)
deriving DecidableEq

/-- Applying `transaction_update.dict(exclude_unset=True)` via `setattr`:
supplied fields replace stored ones, with `transaction_type` and `ticker`
upper-cased when non-empty (the Python guard `if value` skips the falsy
empty string, whose upper-case image is itself anyway). -/
def applyUpdates (t : Transaction) (u : TransactionUpdate) : Transaction :=
  { t with
    transaction_type :=
      match u.transaction_type with
      | some v => if v ≠ "" then strUpper v else v
      | none => t.transaction_type
    ticker :=
      match u.ticker with
      | some v => if v ≠ "" then strUpper v else v
      | none => t.ticker
    quantity := u.quantity.getD t.quantity
    price := u.price.getD t.price
    total_amount := u.total_amount.getD t.total_amount
    transaction_date := u.transaction_date.getD t.transaction_date
    notes := u.notes.getD t.notes }

/-- Embeds `TransactionService.update_transaction`: load the row, keep a
copy for the audit trail, validate; on any validation error raise before
touching the row or the history; otherwise apply the changes, bump the
version by one, append the audit record and commit both together. -/
def update_transaction (today : Int) (db : Db) (transaction_id : Nat)
    (u : TransactionUpdate) : UpdateResult × Db :=
  match db.transactions.find? (fun t => t.id == transaction_id) with
  | none => (.notFound, db)
  | some original =>
    match validate_transaction_update db.transactions today transaction_id u with
    | .notFound => (.notFound, db)
    | .result valid errors _warnings =>
      if valid then
        let updated0 := applyUpdates original u
        let updated := { updated0 with version := updated0.version + 1 }
        let hist := record_change updated "UPDATE" (some original)
        (.ok updated,
          { transactions :=
              db.transactions.map fun t => if t.id = transaction_id then updated else t
            history := db.history ++ [hist] })
      else
        (.validationFailed errors, db)

/-! Spec-side definitions.  The following definitions restate parts of the
specification in its own words, to be compared with the embedded code. -/

/-- Spec-side availability: the signed quantity sum of all other BUY/SELL
transactions for the symbol dated on or before the proposed effective date
(the transaction being edited excluded), order-independent. -/
def availableSpec (db : List Transaction) (e : Effective) (original : Transaction) : ℚ :=
  ((db.filter fun t =>
    decide (t.ticker = e.ticker ∧
      (t.transaction_type = "BUY" ∨ t.transaction_type = "SELL") ∧
      t.transaction_date ≤ e.transaction_date ∧
      t.id ≠ original.id)).map signedQty).sum

/-- Spec-side forward-chain simulation: walk the full chronological BUY/SELL
sequence with the reduced quantity inserted before the first row dated on or
after the proposed date, and record for every SELL the running balance just
before it is applied.  Unlike the code this does not stop at a violation: it
lists every check point, so that the code can be compared against the first
failing one. -/
def sellChecks (newQuantity : ℚ) (effDate : Int) :
    List Transaction → ℚ → Bool → List (Transaction × ℚ)
  | [], _, _ => []
  | t :: ts, bal, added =>
    let bal1 := if ¬added ∧ effDate ≤ t.transaction_date then bal + newQuantity else bal
    let added1 := added ∨ effDate ≤ t.transaction_date
    if t.transaction_type = "BUY" then
      sellChecks newQuantity effDate ts (bal1 + t.quantity.getD 0) added1
    else if t.transaction_type = "SELL" then
      (t, bal1) :: sellChecks newQuantity effDate ts (bal1 - t.quantity.getD 0) added1
    else sellChecks newQuantity effDate ts bal1 added1

/-- An error list carries a given error code. -/
def hasCode (errs : List VError) (c : String) : Prop :=
  ∃ er ∈ errs, er.code = c

/-- Spec-side per-field difference over the audited field set: the name is
one of the seven audited fields and its old value differs from its new. -/
def fieldDiffers (o u2 : Transaction) (n : String) : Prop :=
  (n = "transaction_type" ∧ o.transaction_type ≠ u2.transaction_type) ∨
  (n = "ticker" ∧ o.ticker ≠ u2.ticker) ∨
  (n = "quantity" ∧ o.quantity ≠ u2.quantity) ∨
  (n = "price" ∧ o.price ≠ u2.price) ∨
  (n = "total_amount" ∧ o.total_amount ≠ u2.total_amount) ∨
  (n = "transaction_date" ∧ o.transaction_date ≠ u2.transaction_date) ∨
  (n = "notes" ∧ o.notes ≠ u2.notes)

/-- Spec-side stringified old/new pair of an audited field. -/
def fieldPair (o u2 : Transaction) (n : String) : Option String × Option String :=
  if n = "transaction_type" then (some o.transaction_type, some u2.transaction_type)
  else if n = "ticker" then (some o.ticker, some u2.ticker)
  else if n = "quantity" then (strOptQ o.quantity, strOptQ u2.quantity)
  else if n = "price" then (strOptQ o.price, strOptQ u2.price)
  else if n = "total_amount" then
    (some (toString o.total_amount), some (toString u2.total_amount))
  else if n = "transaction_date" then
    (some (toString o.transaction_date), some (toString u2.transaction_date))
  else if n = "notes" then (o.notes, u2.notes)
  else (none, none)

/-! Helper lemmas. -/

theorem mem_ite_nil {α : Type} (P : Prop) [Decidable P] (l : List α) (a : α) :
    (a ∈ if P then l else []) ↔ P ∧ a ∈ l := by
  by_cases h : P <;> simp [h]

theorem sumQty_nonneg (lots : List Lot) (hn : ∀ l ∈ lots, 0 ≤ l.quantity) :
    0 ≤ sumQty lots := by
  unfold sumQty
  apply List.sum_nonneg
  intro x hx
  rcases List.mem_map.mp hx with ⟨l, hl, rfl⟩
  exact hn l hl

theorem fifo_nonpos (lots : List Lot) (r : ℚ) (hr : r ≤ 0) :
    calculate_fifo_cost_basis lots r = (0, lots) := by
  induction lots with
  | nil => simp [calculate_fifo_cost_basis]
  | cons p ps ih => simp [calculate_fifo_cost_basis, hr, ih]

theorem fifo_oversell (lots : List Lot) (r : ℚ)
    (hn : ∀ l ∈ lots, 0 ≤ l.quantity) (h : sumQty lots < r) :
    calculate_fifo_cost_basis lots r = (sumCost lots, []) := by
  induction lots generalizing r with
  | nil => simp [calculate_fifo_cost_basis, sumCost]
  | cons p ps ih =>
    have hq : 0 ≤ p.quantity := hn p (List.mem_cons_self p ps)
    have hps : ∀ l ∈ ps, 0 ≤ l.quantity := fun l hl => hn l (List.mem_cons_of_mem _ hl)
    have hsum : 0 ≤ sumQty ps := sumQty_nonneg ps hps
    have hcons : sumQty (p :: ps) = p.quantity + sumQty ps := by simp [sumQty]
    have hlt : sumQty ps < r - p.quantity := by rw [hcons] at h; linarith
    have hr0 : ¬ r ≤ 0 := by rw [hcons] at h; linarith
    have hple : p.quantity ≤ r := by rw [hcons] at h; linarith
    simp only [calculate_fifo_cost_basis, if_neg hr0, if_pos hple, ih (r - p.quantity) hps hlt]
    simp [sumCost]

/-! Claim C3. -/

/-- C3 counterexample: on the input BUY 10 at 10 (day 1), BUY 10 at 20
(day 2), SELL 15, the projection removes a cost basis of 200 (the whole
10-at-10 lot plus 5 units of the 20 lot), not the 150 the claim states. -/
theorem C3_counterexample :
    (calculate_fifo_cost_basis [⟨10, 10, 1⟩, ⟨10, 20, 2⟩] 15).1 = 200 ∧
    ¬ (calculate_fifo_cost_basis [⟨10, 10, 1⟩, ⟨10, 20, 2⟩] 15).1 = 150 := by
  constructor <;> norm_num [calculate_fifo_cost_basis]

theorem fifo_partial_split (lots : List Lot) (q : ℚ)
    (hpos : ∀ l ∈ lots, 0 < l.quantity) (hq0 : 0 ≤ q) (hlt : q < sumQty lots) :
    ∃ pre p post r, lots = pre ++ p :: post ∧ 0 ≤ r ∧ r < p.quantity ∧
      q = sumQty pre + r ∧
      calculate_fifo_cost_basis lots q =
        (sumCost pre + r * p.price, ⟨p.quantity - r, p.price, p.date⟩ :: post) := by
  induction lots generalizing q with
  | nil => simp [sumQty] at hlt; linarith
  | cons p ps ih =>
    have hp : 0 < p.quantity := hpos p (List.mem_cons_self p ps)
    have hps : ∀ l ∈ ps, 0 < l.quantity := fun l hl => hpos l (List.mem_cons_of_mem _ hl)
    have hcons : sumQty (p :: ps) = p.quantity + sumQty ps := by simp [sumQty]
    by_cases hcase : q < p.quantity
    · refine ⟨[], p, ps, q, by simp, hq0, hcase, by simp [sumQty], ?_⟩
      by_cases hq : q ≤ 0
      · have hq' : q = 0 := le_antisymm hq hq0
        subst hq'
        rw [fifo_nonpos (p :: ps) 0 le_rfl]
        simp [sumCost]
      · push_neg at hq
        simp only [calculate_fifo_cost_basis, if_neg (not_le.mpr hq),
          if_neg (not_le.mpr hcase)]
        rw [fifo_nonpos ps 0 le_rfl]
        simp [sumCost]
    · push_neg at hcase
      have hq'0 : 0 ≤ q - p.quantity := by linarith
      have hlt' : q - p.quantity < sumQty ps := by rw [hcons] at hlt; linarith
      obtain ⟨pre', p', post', r, hsplit, hr0, hrlt, hqeq, hfifo⟩ :=
        ih (q - p.quantity) hps hq'0 hlt'
      have hpre : sumQty (p :: pre') = p.quantity + sumQty pre' := by simp [sumQty]
      refine ⟨p :: pre', p', post', r, by rw [hsplit, List.cons_append], hr0, hrlt,
        by rw [hpre]; linarith, ?_⟩
      have hnotle : ¬ q ≤ 0 := not_le.mpr (by linarith)
      simp only [calculate_fifo_cost_basis, if_neg hnotle, if_pos hcase, hfifo]
      simp [sumCost]
      ring

/-- C3 (amended): FIFO projection consumes the oldest lots first — for any
sequence of BUY lots with positive quantities followed by a SELL smaller
than the total open quantity, the cost basis removed is the quantity-weighted
price of the oldest lots first: the oldest lots are consumed whole and the
last touched lot is split, so the basis removed is the full cost of the
consumed prefix plus the residual units at that lot's price; in particular,
on BUY 10 at 10 (day 1), BUY 10 at 20 (day 2), SELL 15 (day 3) it yields
remaining quantity 5, remaining cost basis 100 (5 units of the 20 lot) and
realized cost basis removed of 200 (= 10 times 10 plus 5 times 20). -/
theorem C3_fifo_oldest_first :
    (∀ (lots : List Lot) (q : ℚ), (∀ l ∈ lots, 0 < l.quantity) → 0 ≤ q →
      q < sumQty lots →
      ∃ pre p post r, lots = pre ++ p :: post ∧ 0 ≤ r ∧ r < p.quantity ∧
        q = sumQty pre + r ∧
        calculate_fifo_cost_basis lots q =
          (sumCost pre + r * p.price, ⟨p.quantity - r, p.price, p.date⟩ :: post)) ∧
    calculate_fifo_cost_basis [⟨10, 10, 1⟩, ⟨10, 20, 2⟩] 15 =
      (200, [⟨5, 20, 2⟩]) ∧
    projectTicker
        [⟨"AAPL", "BUY", 10, 10, 1⟩, ⟨"AAPL", "BUY", 10, 20, 2⟩,
         ⟨"AAPL", "SELL", 15, 30, 3⟩] "AAPL" =
      ⟨[⟨5, 20, 2⟩], 5, 100⟩ := by
  refine ⟨fifo_partial_split, ?_, ?_⟩
  · norm_num [calculate_fifo_cost_basis]
  · norm_num [projectTicker, processRow, initialTickerState, calculate_fifo_cost_basis]
    decide

/-- C3 witness: the general oldest-first split applied to the claim's
concrete lots — BUY 10 at 10, BUY 10 at 20, SELL 15 — consumes the whole
oldest lot and 5 units of the second. -/
theorem C3_witness :
    ∃ pre p post r,
      [(⟨10, 10, 1⟩ : Lot), ⟨10, 20, 2⟩] = pre ++ p :: post ∧ 0 ≤ r ∧
      r < p.quantity ∧ (15 : ℚ) = sumQty pre + r ∧
      calculate_fifo_cost_basis [⟨10, 10, 1⟩, ⟨10, 20, 2⟩] 15 =
        (sumCost pre + r * p.price, ⟨p.quantity - r, p.price, p.date⟩ :: post) :=
  C3_fifo_oldest_first.1 [⟨10, 10, 1⟩, ⟨10, 20, 2⟩] 15
    (by intro l hl; simp at hl; rcases hl with rfl | rfl <;> norm_num)
    (by norm_num) (by norm_num [sumQty])

/-! Claim C7. -/

/-- C7: the Projector is a total function (it is defined for every lot list
and every requested quantity, raising nothing); a strict oversell consumes
every open lot, leaving the queue empty with the whole cost basis removed,
and the holdings fold drives the remaining quantity strictly negative
instead of rejecting the SELL. -/
theorem C7_projector_total_oversell (lots : List Lot) (q : ℚ)
    (hn : ∀ l ∈ lots, 0 ≤ l.quantity) (hover : sumQty lots < q) :
    calculate_fifo_cost_basis lots q = (sumCost lots, []) ∧
    ∀ (tk : String) (p : ℚ) (d : Int) (st : TickerState),
      st.purchases = lots → st.totalQuantity = sumQty lots →
      (processRow st ⟨tk, "SELL", q, p, d⟩).purchases = [] ∧
      (processRow st ⟨tk, "SELL", q, p, d⟩).totalQuantity < 0 := by
  have hfifo := fifo_oversell lots q hn hover
  refine ⟨hfifo, ?_⟩
  intro tk p d st hp hq
  have hsell : processRow st ⟨tk, "SELL", q, p, d⟩ =
      { purchases := (calculate_fifo_cost_basis st.purchases q).2
        totalQuantity := st.totalQuantity - q
        totalCost := st.totalCost - (calculate_fifo_cost_basis st.purchases q).1 } := by
    simp [processRow]
  rw [hsell, hp, hfifo, hq]
  exact ⟨rfl, by simpa using hover⟩

/-- C7 witness: a single lot of 10 shares at price 5, oversold by a SELL of
15, leaves no lots, removes the whole cost basis of 50, and pushes the
projected quantity to -5. -/
theorem C7_witness :
    calculate_fifo_cost_basis [⟨10, 5, 1⟩] 15 = (50, []) ∧
    (processRow ⟨[⟨10, 5, 1⟩], 10, 50⟩ ⟨"A", "SELL", 15, 1, 2⟩).purchases = [] ∧
    (processRow ⟨[⟨10, 5, 1⟩], 10, 50⟩ ⟨"A", "SELL", 15, 1, 2⟩).totalQuantity < 0 := by
  have h := C7_projector_total_oversell [⟨10, 5, 1⟩] 15
    (by intro l hl; simp at hl; simp [hl]) (by norm_num [sumQty])
  have h2 := h.2 "A" 1 2 ⟨[⟨10, 5, 1⟩], 10, 50⟩ rfl (by norm_num [sumQty])
  refine ⟨?_, h2.1, h2.2⟩
  have : sumCost [(⟨10, 5, 1⟩ : Lot)] = 50 := by norm_num [sumCost]
  rw [h.1, this]

/-! Claim C8. -/

theorem validate_date_strOk_eq_obj (today d : Int) :
    validate_date (.strOk d) today = validate_date (.obj d) today := rfl

theorem hasCode_validate_date_obj (today d : Int) (c : String) :
    hasCode (validate_date (.obj d) today) c ↔
      (today < d ∧ c = "DATE_FUTURE") ∨ (d < today - 3650 ∧ c = "DATE_TOO_OLD") := by
  simp only [validate_date, hasCode]
  constructor
  · rintro ⟨er, hmem, hcode⟩
    rcases List.mem_append.mp hmem with hm | hm
    · rcases (mem_ite_nil _ _ _).mp hm with ⟨hc, hm2⟩
      simp only [List.mem_singleton] at hm2
      subst hm2
      exact Or.inl ⟨hc, hcode.symm⟩
    · rcases (mem_ite_nil _ _ _).mp hm with ⟨hc, hm2⟩
      simp only [List.mem_singleton] at hm2
      subst hm2
      exact Or.inr ⟨hc, hcode.symm⟩
  · rintro (⟨hc, rfl⟩ | ⟨hc, rfl⟩)
    · exact ⟨_, List.mem_append.mpr (Or.inl ((mem_ite_nil _ _ _).mpr
        ⟨hc, List.mem_singleton.mpr rfl⟩)), rfl⟩
    · exact ⟨_, List.mem_append.mpr (Or.inr ((mem_ite_nil _ _ _).mpr
        ⟨hc, List.mem_singleton.mpr rfl⟩)), rfl⟩

/-- C8: a parsed effective date strictly after the validation day yields the
future-date error and a parsed date earlier than 3650 days before the
validation day yields the out-of-range error (each present exactly under its
condition), while a malformed date string yields the distinct
invalid-format error alone, so neither range code can accompany it. -/
theorem C8_date_validation (today : Int) (x : DateInput) :
    (hasCode (validate_date x today) "DATE_FUTURE" ↔
      ∃ d, x.parsed = some d ∧ today < d) ∧
    (hasCode (validate_date x today) "DATE_TOO_OLD" ↔
      ∃ d, x.parsed = some d ∧ d < today - 3650) ∧
    (x.parsed = none →
      validate_date x today =
        [{ field := some "transaction_date"
           message := "Invalid date format. Use YYYY-MM-DD"
           code := "DATE_INVALID_FORMAT" }]) := by
  cases x with
  | obj d =>
    refine ⟨?_, ?_, by intro h; cases h⟩ <;>
      rw [hasCode_validate_date_obj] <;>
      simp [DateInput.parsed]
  | strOk d =>
    refine ⟨?_, ?_, by intro h; cases h⟩ <;>
      rw [validate_date_strOk_eq_obj, hasCode_validate_date_obj] <;>
      simp [DateInput.parsed]
  | strBad s =>
    refine ⟨?_, ?_, fun _ => rfl⟩ <;> simp [validate_date, hasCode, DateInput.parsed]

/-- C8 witness: at validation day 0, the malformed string yields exactly the
invalid-format error, so no future-date or out-of-range error accompanies
it. -/
theorem C8_witness :
    validate_date (.strBad "not-a-date") 0 =
      [{ field := some "transaction_date"
         message := "Invalid date format. Use YYYY-MM-DD"
         code := "DATE_INVALID_FORMAT" }] :=
  (C8_date_validation 0 (.strBad "not-a-date")).2.2 rfl

/-! Claim C9. -/

/-- C9: when none of the seven audited fields changed value, the UPDATE
audit record stores `None` for `changed_fields` (no empty diff object),
exactly like every CREATE and DELETE record. -/
theorem C9_noop_update_diff (t original : Transaction)
    (h1 : original.transaction_type = t.transaction_type)
    (h2 : original.ticker = t.ticker) (h3 : original.quantity = t.quantity)
    (h4 : original.price = t.price) (h5 : original.total_amount = t.total_amount)
    (h6 : original.transaction_date = t.transaction_date)
    (h7 : original.notes = t.notes) :
    (record_change t "UPDATE" (some original)).changed_fields = none ∧
    ∀ s : Transaction,
      (record_change s "CREATE" none).changed_fields = none ∧
      (record_change s "DELETE" none).changed_fields = none := by
  refine ⟨?_, fun s => ⟨rfl, rfl⟩⟩
  have hdiff : calculate_changed_fields original t = [] := by
    simp [calculate_changed_fields, h1, h2, h3, h4, h5, h6, h7]
  simp [record_change, hdiff]

/-- C9 witness: a record for an update that changed nothing carries no
diff. -/
theorem C9_witness :
    (record_change ⟨1, "BUY", "AAPL", some 10, some 5, 50, 0, none, 2⟩ "UPDATE"
      (some ⟨1, "BUY", "AAPL", some 10, some 5, 50, 0, none, 1⟩)).changed_fields = none ∧
    (record_change ⟨1, "BUY", "AAPL", some 10, some 5, 50, 0, none, 2⟩
      "CREATE" none).changed_fields = none := by
  have h := C9_noop_update_diff ⟨1, "BUY", "AAPL", some 10, some 5, 50, 0, none, 2⟩
    ⟨1, "BUY", "AAPL", some 10, some 5, 50, 0, none, 1⟩ rfl rfl rfl rfl rfl rfl rfl
  exact ⟨h.1, (h.2 _).1⟩

/-! Claim C10. -/

/-- C10: every holding the computation returns has strictly positive
quantity, equal to the projected net quantity of its ticker; a ticker whose
projected quantity is zero or negative is therefore omitted. -/
theorem C10_holdings_positive (rows : List TradeRow) (getPrice : String → Option ℚ)
    (getInfo : String → StockInfo) (h : Holding)
    (hmem : h ∈ calculate_holdings rows getPrice getInfo) :
    0 < h.quantity ∧ h.quantity = (projectTicker rows h.ticker).totalQuantity := by
  simp only [calculate_holdings, List.mem_filterMap] at hmem
  obtain ⟨tk, htk, hf⟩ := hmem
  by_cases hq : (projectTicker rows tk).totalQuantity ≤ 0
  · rw [if_pos hq] at hf; cases hf
  · rw [if_neg hq] at hf
    split at hf
    · cases hf
    · split at hf
      · cases hf
      · have hrec := Option.some.inj hf
        subst hrec
        exact ⟨lt_of_not_le hq, rfl⟩

/-- C10 witness: a single BUY of 10 shares yields exactly one holding, whose
quantity is the positive projected quantity 10. -/
theorem C10_witness :
    0 < (⟨"A", some "A", 10, 5, 7, 70, 50, 20, 40, none, none⟩ : Holding).quantity ∧
    (⟨"A", some "A", 10, 5, 7, 70, 50, 20, 40, none, none⟩ : Holding).quantity =
      (projectTicker [⟨"A", "BUY", 10, 5, 1⟩]
        (⟨"A", some "A", 10, 5, 7, 70, 50, 20, 40, none, none⟩ : Holding).ticker).totalQuantity :=
  C10_holdings_positive [⟨"A", "BUY", 10, 5, 1⟩] (fun _ => some 7)
    (fun _ => ⟨none, none, none⟩) _ (by
      norm_num [calculate_holdings, tickerKeys, projectTicker, processRow,
        initialTickerState])

/-! Claim C1. -/

theorem foldl_add_signedQty (l : List Transaction) (a : ℚ) :
    l.foldl (fun acc t => acc + signedQty t) a = a + (l.map signedQty).sum := by
  induction l generalizing a with
  | nil => simp
  | cons t ts ih => simp [List.foldl_cons, ih, add_assoc]

theorem insertByDateId_perm (t : Transaction) (l : List Transaction) :
    List.Perm (insertByDateId t l) (t :: l) := by
  induction l with
  | nil => simp [insertByDateId]
  | cons u us ih =>
    unfold insertByDateId
    split
    · exact List.Perm.refl _
    · exact (ih.cons u).trans (List.Perm.swap t u us)

theorem sortByDateId_perm (l : List Transaction) : List.Perm (sortByDateId l) l := by
  induction l with
  | nil => exact List.Perm.refl _
  | cons t ts ih => exact (insertByDateId_perm t (sortByDateId ts)).trans (ih.cons t)

theorem sum_signedQty_sortByDateId (l : List Transaction) :
    ((sortByDateId l).map signedQty).sum = (l.map signedQty).sum :=
  ((sortByDateId_perm l).map signedQty).sum_eq

/-- C1: for an effective SELL with positive quantity, the validator reports
the insufficient-shares error exactly when the requested quantity exceeds
the signed-quantity sum of all other BUY/SELL transactions of the symbol
dated on or before the proposed date, and the error carries the available
quantity, the requested quantity, the ticker and the date as metadata. -/
theorem C1_portfolio_integrity (db : List Transaction) (e : Effective)
    (original : Transaction) (qs : ℚ) (htyp : strUpper e.transaction_type = "SELL")
    (hq : e.quantity = some qs) (hpos : 0 < qs) :
    validate_portfolio_integrity db e original =
      if availableSpec db e original < qs then
        [mkInsufficientError (availableSpec db e original) qs e.ticker
          e.transaction_date]
      else [] := by
  unfold validate_portfolio_integrity
  rw [if_neg (by simp [htyp]), hq]
  have havail : (integrityRows db e original).foldl (fun acc t => acc + signedQty t) 0 =
      availableSpec db e original := by
    rw [foldl_add_signedQty, zero_add, integrityRows, sum_signedQty_sortByDateId]
    rfl
  simp only [havail, if_neg (not_le.mpr hpos)]

/-- C1 witness: the concrete case of the claim — BUY 100 on day 1, SELL 50
on day 5, and the SELL edited to 150 shares on day 3 fails with available
100 against requested 150. -/
theorem C1_witness :
    validate_portfolio_integrity
        [⟨1, "BUY", "AAPL", some 100, some 1, 100, 1, none, 1⟩,
         ⟨2, "SELL", "AAPL", some 50, some 1, -50, 5, none, 1⟩]
        ⟨2, "SELL", "AAPL", some 150, some 1, -150, 3, none⟩
        ⟨2, "SELL", "AAPL", some 50, some 1, -50, 5, none, 1⟩ =
      [mkInsufficientError 100 150 "AAPL" 3] := by
  rw [C1_portfolio_integrity
    [⟨1, "BUY", "AAPL", some 100, some 1, 100, 1, none, 1⟩,
     ⟨2, "SELL", "AAPL", some 50, some 1, -50, 5, none, 1⟩]
    ⟨2, "SELL", "AAPL", some 150, some 1, -150, 3, none⟩
    ⟨2, "SELL", "AAPL", some 50, some 1, -50, 5, none, 1⟩ 150 rfl rfl (by norm_num)]
  have : availableSpec
      [⟨1, "BUY", "AAPL", some 100, some 1, 100, 1, none, 1⟩,
       ⟨2, "SELL", "AAPL", some 50, some 1, -50, 5, none, 1⟩]
      ⟨2, "SELL", "AAPL", some 150, some 1, -150, 3, none⟩
      ⟨2, "SELL", "AAPL", some 50, some 1, -50, 5, none, 1⟩ = 100 := by
    norm_num [availableSpec, signedQty]
  rw [this]
  norm_num

/-! Claim C2. -/

theorem fifoImpactLoop_eq_find (newQ : ℚ) (effDate : Int) (tk : String)
    (txns : List Transaction) :
    ∀ (bal : ℚ) (added : Bool),
      fifoImpactLoop newQ effDate tk txns bal added =
        match (sellChecks newQ effDate txns bal added).find?
            (fun c => decide (c.2 - c.1.quantity.getD 0 < 0)) with
        | some c =>
          [mkFifoError newQ c.1.transaction_date (c.1.quantity.getD 0) c.2 tk]
        | none => [] := by
  induction txns with
  | nil => intro bal added; rfl
  | cons t ts ih =>
    intro bal added
    simp only [fifoImpactLoop, sellChecks]
    by_cases hb : t.transaction_type = "BUY"
    · simp only [if_pos hb, ih]
    · by_cases hs : t.transaction_type = "SELL"
      · simp only [if_neg hb, if_pos hs]
        by_cases hneg :
            (if ¬added = true ∧ effDate ≤ t.transaction_date then bal + newQ else bal) -
              t.quantity.getD 0 < 0
        · rw [if_pos hneg]
          rw [List.find?_cons_of_pos _ (by simpa using hneg)]
          have : (if ¬added = true ∧ effDate ≤ t.transaction_date then bal + newQ else bal) -
              t.quantity.getD 0 + t.quantity.getD 0 =
              (if ¬added = true ∧ effDate ≤ t.transaction_date then bal + newQ else bal) := by
            ring
          rw [this]
        · rw [if_neg hneg]
          rw [List.find?_cons_of_neg _ (by simpa using hneg)]
          exact ih _ _
      · simp only [if_neg hb, if_neg hs, ih]

/-- C2: the forward-chain check is skipped unless the effective transaction
is a BUY whose quantity drops strictly below the original quantity; when it
runs, it returns the error of the chronologically first SELL of the
re-simulated sequence whose running position goes negative (none when every
SELL stays covered), carrying that SELL's date, its quantity and the
position available before it, and nothing past that SELL is reported. -/
theorem C2_fifo_chain (db : List Transaction) (e : Effective)
    (original : Transaction) :
    (strUpper e.transaction_type ≠ "BUY" → validate_fifo_impact db e original = []) ∧
    (original.quantity.getD 0 ≤ e.quantity.getD 0 →
      validate_fifo_impact db e original = []) ∧
    (strUpper e.transaction_type = "BUY" →
      e.quantity.getD 0 < original.quantity.getD 0 →
      validate_fifo_impact db e original =
        match (sellChecks (e.quantity.getD 0) e.transaction_date
            (fifoImpactRows db e original) 0 false).find?
            (fun c => decide (c.2 - c.1.quantity.getD 0 < 0)) with
        | some c =>
          [mkFifoError (e.quantity.getD 0) c.1.transaction_date
            (c.1.quantity.getD 0) c.2 e.ticker]
        | none => []) := by
  refine ⟨?_, ?_, ?_⟩
  · intro h
    simp [validate_fifo_impact, h]
  · intro h
    unfold validate_fifo_impact
    split
    · rfl
    · rw [if_pos h]
  · intro htyp hred
    unfold validate_fifo_impact
    rw [if_neg (by simp [htyp]), if_neg (not_le.mpr hred)]
    exact fifoImpactLoop_eq_find _ _ _ _ _ _

/-- C2 witness: the concrete case of the claim — BUY 100 on day 1, SELL 50
on day 2; reducing the BUY to 30 is rejected with the forward-chain error
referencing the day-2 SELL, quantity 50 against 30 available before it, a
shortfall of 20. -/
theorem C2_witness :
    validate_fifo_impact
        [⟨1, "BUY", "AAPL", some 100, some 1, 100, 1, none, 1⟩,
         ⟨2, "SELL", "AAPL", some 50, some 1, -50, 2, none, 1⟩]
        ⟨1, "BUY", "AAPL", some 30, some 1, 30, 1, none⟩
        ⟨1, "BUY", "AAPL", some 100, some 1, 100, 1, none, 1⟩ =
      [mkFifoError 30 2 50 30 "AAPL"] ∧ (50 : ℚ) - 30 = 20 := by
  refine ⟨?_, by norm_num⟩
  rw [(C2_fifo_chain
    [⟨1, "BUY", "AAPL", some 100, some 1, 100, 1, none, 1⟩,
     ⟨2, "SELL", "AAPL", some 50, some 1, -50, 2, none, 1⟩]
    ⟨1, "BUY", "AAPL", some 30, some 1, 30, 1, none⟩
    ⟨1, "BUY", "AAPL", some 100, some 1, 100, 1, none, 1⟩).2.2 rfl (by norm_num)]
  norm_num [fifoImpactRows, sortByDateId, insertByDateId, sellChecks, List.find?]

/-! Claim C6. -/

/-- C6: an entry appears in the UPDATE diff exactly when its name is one of
the seven audited fields and that field's old value differs from its new
value (None-to-value transitions included), and the entry stored is the
stringified old/new pair of that field. -/
theorem C6_audit_diff (o u2 : Transaction) (n : String) (oldv newv : Option String) :
    (n, oldv, newv) ∈ calculate_changed_fields o u2 ↔
      fieldDiffers o u2 n ∧ (oldv, newv) = fieldPair o u2 n := by
  unfold calculate_changed_fields fieldDiffers
  simp only [List.mem_append, mem_ite_nil, List.mem_singleton, Prod.mk.injEq]
  constructor
  · rintro ((((((⟨hne, rfl, rfl, rfl⟩ | ⟨hne, rfl, rfl, rfl⟩) | ⟨hne, rfl, rfl, rfl⟩) |
      ⟨hne, rfl, rfl, rfl⟩) | ⟨hne, rfl, rfl, rfl⟩) | ⟨hne, rfl, rfl, rfl⟩) |
      ⟨hne, rfl, rfl, rfl⟩)
    · exact ⟨Or.inl ⟨rfl, hne⟩, rfl⟩
    · exact ⟨Or.inr (Or.inl ⟨rfl, hne⟩), rfl⟩
    · exact ⟨Or.inr (Or.inr (Or.inl ⟨rfl, hne⟩)), rfl⟩
    · exact ⟨Or.inr (Or.inr (Or.inr (Or.inl ⟨rfl, hne⟩))), rfl⟩
    · exact ⟨Or.inr (Or.inr (Or.inr (Or.inr (Or.inl ⟨rfl, hne⟩)))), rfl⟩
    · exact ⟨Or.inr (Or.inr (Or.inr (Or.inr (Or.inr (Or.inl ⟨rfl, hne⟩))))), rfl⟩
    · exact ⟨Or.inr (Or.inr (Or.inr (Or.inr (Or.inr (Or.inr ⟨rfl, hne⟩))))), rfl⟩
  · rintro ⟨⟨rfl, hne⟩ | ⟨rfl, hne⟩ | ⟨rfl, hne⟩ | ⟨rfl, hne⟩ | ⟨rfl, hne⟩ |
      ⟨rfl, hne⟩ | ⟨rfl, hne⟩, hpair⟩
    · injection (show (oldv, newv) =
        (some o.transaction_type, some u2.transaction_type) from hpair) with h1 h2
      exact Or.inl (Or.inl (Or.inl (Or.inl (Or.inl (Or.inl ⟨hne, rfl, h1, h2⟩)))))
    · injection (show (oldv, newv) = (some o.ticker, some u2.ticker) from hpair) with h1 h2
      exact Or.inl (Or.inl (Or.inl (Or.inl (Or.inl (Or.inr ⟨hne, rfl, h1, h2⟩)))))
    · injection (show (oldv, newv) =
        (strOptQ o.quantity, strOptQ u2.quantity) from hpair) with h1 h2
      exact Or.inl (Or.inl (Or.inl (Or.inl (Or.inr ⟨hne, rfl, h1, h2⟩))))
    · injection (show (oldv, newv) = (strOptQ o.price, strOptQ u2.price) from hpair) with h1 h2
      exact Or.inl (Or.inl (Or.inl (Or.inr ⟨hne, rfl, h1, h2⟩)))
    · injection (show (oldv, newv) =
        (some (toString o.total_amount), some (toString u2.total_amount)) from hpair) with h1 h2
      exact Or.inl (Or.inl (Or.inr ⟨hne, rfl, h1, h2⟩))
    · injection (show (oldv, newv) =
        (some (toString o.transaction_date), some (toString u2.transaction_date)) from
        hpair) with h1 h2
      exact Or.inl (Or.inr ⟨hne, rfl, h1, h2⟩)
    · injection (show (oldv, newv) = (o.notes, u2.notes) from hpair) with h1 h2
      exact Or.inr ⟨hne, rfl, h1, h2⟩

/-! Claims C4 and C5. -/

theorem validate_result_valid_eq (db : List Transaction) (today : Int) (tid : Nat)
    (u : TransactionUpdate) (v : Bool) (errs warns : List VError)
    (h : validate_transaction_update db today tid u = .result v errs warns) :
    v = errs.isEmpty := by
  unfold validate_transaction_update at h
  cases hf : db.find? (fun t => t.id == tid) with
  | none => rw [hf] at h; cases h
  | some orig =>
    rw [hf] at h
    rw [ValidationOutcome.result.injEq] at h
    obtain ⟨hv, he, hw⟩ := h
    subst he
    exact hv.symm

/-- C5: an update is all-or-nothing — whenever validation reports at least
one error, the call returns the validation failure and the whole store
(transactions and audit history) is exactly as before; on success the row
mutation and the single appended audit record land in the same returned
state. -/
theorem C5_update_atomic (today : Int) (db : Db) (tid : Nat) (u : TransactionUpdate) :
    (∀ errs, (update_transaction today db tid u).1 = .validationFailed errs →
      errs ≠ [] ∧ (update_transaction today db tid u).2 = db) ∧
    (∀ errs w,
      validate_transaction_update db.transactions today tid u = .result false errs w →
      (update_transaction today db tid u).1 = .validationFailed errs) ∧
    (∀ t, (update_transaction today db tid u).1 = .ok t →
      ∃ original, db.transactions.find? (fun s => s.id == tid) = some original ∧
        (update_transaction today db tid u).2.transactions =
          db.transactions.map (fun s => if s.id = tid then t else s) ∧
        (update_transaction today db tid u).2.history =
          db.history ++ [record_change t "UPDATE" (some original)]) := by
  cases hf : db.transactions.find? (fun t => t.id == tid) with
  | none =>
    refine ⟨?_, ?_, ?_⟩
    · intro errs h
      simp only [update_transaction, hf] at h
      cases h
    · intro errs w hv
      simp only [validate_transaction_update, hf] at hv
      cases hv
    · intro t h
      simp only [update_transaction, hf] at h
      cases h
  | some orig =>
    cases hv : validate_transaction_update db.transactions today tid u with
    | notFound =>
      exfalso
      unfold validate_transaction_update at hv
      rw [hf] at hv
      cases hv
    | result valid errs warns =>
      have hval : valid = errs.isEmpty :=
        validate_result_valid_eq db.transactions today tid u valid errs warns hv
      cases valid with
      | false =>
        refine ⟨?_, ?_, ?_⟩
        · intro errs0 h
          simp only [update_transaction, hf, hv, Bool.false_eq_true, if_false] at h ⊢
          rw [UpdateResult.validationFailed.injEq] at h
          subst h
          refine ⟨?_, by simp only [update_transaction, hf, hv, Bool.false_eq_true, if_false]⟩
          intro hnil
          rw [hnil] at hval
          exact Bool.false_ne_true hval
        · intro errs0 w0 hv0
          rw [ValidationOutcome.result.injEq] at hv0
          obtain ⟨hv1, hv2, hv3⟩ := hv0
          subst hv2
          simp only [update_transaction, hf, hv, Bool.false_eq_true, if_false]
        · intro t h
          simp only [update_transaction, hf, hv, Bool.false_eq_true, if_false] at h
          cases h
      | true =>
        refine ⟨?_, ?_, ?_⟩
        · intro errs0 h
          simp only [update_transaction, hf, hv, if_true] at h
          cases h
        · intro errs0 w0 hv0
          rw [ValidationOutcome.result.injEq] at hv0
          obtain ⟨hv1, hv2, hv3⟩ := hv0
          cases hv1
        · intro t h
          simp only [update_transaction, hf, hv, if_true] at h
          rw [UpdateResult.ok.injEq] at h
          subst h
          exact ⟨orig, rfl, by simp only [update_transaction, hf, hv, if_true],
            by simp only [update_transaction, hf, hv, if_true]⟩

/-- C5 witness: a future-dated update against a stored BUY returns the
future-date validation failure and leaves the store untouched. -/
theorem C5_witness :
    (update_transaction 0 ⟨[⟨1, "BUY", "AAPL", some 10, some 5, 50, 0, none, 1⟩], []⟩ 1
      { transaction_date := some 1 }).2 =
      ⟨[⟨1, "BUY", "AAPL", some 10, some 5, 50, 0, none, 1⟩], []⟩ :=
  ((C5_update_atomic 0 ⟨[⟨1, "BUY", "AAPL", some 10, some 5, 50, 0, none, 1⟩], []⟩ 1
      { transaction_date := some 1 }).1
    [⟨some "transaction_date", "Transaction date cannot be in the future",
      "DATE_FUTURE", none⟩]
    (by decide)).2

/-- C4 counterexample: the stored row has version 2 — a concurrent writer
already updated it after the caller read version 1 — and the update schema
carries no version field at all; the stale write is nevertheless applied:
the call succeeds with version 3 and the stored transaction changes, so no
conflict rejection happens (the result type of the service has no conflict
outcome whatsoever). -/
theorem C4_counterexample :
    (update_transaction 0 ⟨[⟨1, "BUY", "AAPL", some 10, some 5, 50, 0, none, 2⟩], []⟩ 1
        { quantity := some (some 20) }).1 =
      .ok ⟨1, "BUY", "AAPL", some 20, some 5, 50, 0, none, 3⟩ ∧
    (update_transaction 0 ⟨[⟨1, "BUY", "AAPL", some 10, some 5, 50, 0, none, 2⟩], []⟩ 1
        { quantity := some (some 20) }).2.transactions ≠
      [⟨1, "BUY", "AAPL", some 10, some 5, 50, 0, none, 2⟩] := by
  constructor <;> decide

/-- C4 (amended): every successful update of an existing transaction
increments the stored version counter by exactly 1; no stale-version
rejection exists — the update request carries no version and the service
never compares versions, so no conflict outcome is possible. -/
theorem C4_version_increment (today : Int) (db : Db) (tid : Nat)
    (u : TransactionUpdate) (t : Transaction)
    (h : (update_transaction today db tid u).1 = .ok t) :
    ∃ original, db.transactions.find? (fun s => s.id == tid) = some original ∧
      t.version = original.version + 1 := by
  cases hf : db.transactions.find? (fun s => s.id == tid) with
  | none =>
    simp only [update_transaction, hf] at h
    cases h
  | some orig =>
    cases hv : validate_transaction_update db.transactions today tid u with
    | notFound =>
      simp only [update_transaction, hf, hv] at h
      cases h
    | result valid errs warns =>
      cases valid with
      | false =>
        simp only [update_transaction, hf, hv, Bool.false_eq_true, if_false] at h
        cases h
      | true =>
        simp only [update_transaction, hf, hv, if_true] at h
        rw [UpdateResult.ok.injEq] at h
        subst h
        exact ⟨orig, rfl, rfl⟩

/-- C4 witness: the concrete stale-store update of the counterexample has
its result version 3 = stored version 2 + 1. -/
theorem C4_witness :
    ∃ original,
      ((⟨[⟨1, "BUY", "AAPL", some 10, some 5, 50, 0, none, 2⟩], []⟩ : Db).transactions.find?
        (fun s => s.id == 1)) = some original ∧
      (⟨1, "BUY", "AAPL", some 20, some 5, 50, 0, none, 3⟩ : Transaction).version =
        original.version + 1 :=
  C4_version_increment 0 ⟨[⟨1, "BUY", "AAPL", some 10, some 5, 50, 0, none, 2⟩], []⟩ 1
    { quantity := some (some 20) } ⟨1, "BUY", "AAPL", some 20, some 5, 50, 0, none, 3⟩
    (by decide)

end PortfolioManager
